import Mathlib

/-!
Verification development for the multisport lineup engine.

The definitions below are a shallow embedding of the position-assignment
core found in src/sports: the data model (sports/models), the feasibility
checker and smart assignment engine (sports/utils/lineup_utils.py), and the
baseball and volleyball generators (sports/generators).  Python dictionaries
are embedded as association lists preserving insertion order; Python's
stable list sort is embedded as a stable insertion sort; functions that
raise ValueError return Except String instead.  Only fields that the
algorithms read are carried (jersey_number and metadata are copied verbatim
by the source and never inspected, so they are dropped here).
-/

namespace Lineups

/-- Embeds sports/models/lineup.py Player (id, name, position_preferences;
an empty preference list means the player can play anywhere). -/
structure Player where
  id : String
  name : String
  position_preferences : List String
deriving DecidableEq, Repr

/-- Embeds Player.can_play_position: empty preferences mean any position. -/
def Player.can_play_position (p : Player) (position_id : String) : Bool :=
  if p.position_preferences.isEmpty then true
  else p.position_preferences.contains position_id

/-- Embeds sports/models/sport_config.py Position (only id and name are read
by the engine). -/
structure Position where
  id : String
  name : String
deriving DecidableEq, Repr

/-- Embeds sports/models/lineup.py PositionAssignment (batting_order,
is_captain and notes are never set by the generators). -/
structure PositionAssignment where
  player : Player
  position : String
deriving DecidableEq, Repr

/-- Embeds sports/models/lineup.py Lineup (substitutions_used and metadata
are not read by any claim). -/
structure Lineup where
  period : Nat
  period_name : String
  assignments : List PositionAssignment
  bench_players : List Player
deriving DecidableEq, Repr

/-- A Python dict str -> str as an insertion-ordered association list:
update in place when the key exists, append otherwise. -/
def dictInsert (d : List (String × String)) (k v : String) :
    List (String × String) :=
  if d.any (fun kv => kv.1 == k) then
    d.map (fun kv => if kv.1 == k then (k, v) else kv)
  else d ++ [(k, v)]

/-- Embeds can_fill_all_positions (lineup_utils.py:118-165): recursive
backtracking where the tentative assignment dict is keyed by position id, so
a repeated position id overwrites the earlier entry. -/
def can_fill_all_positions (players : List Player) (position_ids : List String)
    (assignments : List (String × String)) : Bool :=
  match position_ids with
  | [] => true
  | position :: remaining_positions =>
    players.any (fun player =>
      ! (assignments.map (fun kv => kv.2)).contains player.id &&
      player.can_play_position position &&
      can_fill_all_positions players remaining_positions
        (dictInsert assignments position player.id))

/-- Player position history: a Python dict str -> list str as an
insertion-ordered association list. -/
abbrev Hist := List (String × List String)

/-- Dict lookup for the history map. -/
def histGet (h : Hist) (pid : String) : List String :=
  match h.find? (fun kv => kv.1 == pid) with
  | some kv => kv.2
  | none => []

/-- history[pid].append(posid), creating the entry first when missing
(embeds the body of track_player_position_history for one assignment). -/
def histAppend (h : Hist) (pid posid : String) : Hist :=
  if h.any (fun kv => kv.1 == pid) then
    h.map (fun kv => if kv.1 == pid then (kv.1, kv.2 ++ [posid]) else kv)
  else h ++ [(pid, [posid])]

/-- Embeds track_player_position_history (lineup_utils.py:168-188); the
Python function mutates the dict in place, here the updated dict is
returned. -/
def track_player_position_history (assignments : List PositionAssignment)
    (h : Hist) : Hist :=
  assignments.foldl (fun h a => histAppend h a.player.id a.position) h

/-- Stable insertion into a sorted list: the new element goes before the
first element it does not strictly exceed, matching Python sort
stability. -/
def stableInsert (lt : α → α → Bool) (x : α) : List α → List α
  | [] => [x]
  | y :: ys => if lt y x then y :: stableInsert lt x ys else x :: y :: ys

/-- Stable sort (the unique output of Python's stable list.sort for a
strict-weak comparison derived from a key function). -/
def stableSort (lt : α → α → Bool) : List α → List α
  | [] => []
  | x :: xs => stableInsert lt x (stableSort lt xs)

/-- Embeds _get_candidates_for_position (lineup_utils.py:264-268). -/
def get_candidates_for_position (position : Position) (players : List Player) :
    List Player :=
  players.filter (fun p => p.can_play_position position.id)

/-- Embeds _calculate_position_scarcity (lineup_utils.py:271-296): pair each
position with its candidate count and stable-sort ascending by count. -/
def calculate_position_scarcity (positions : List Position)
    (players : List Player) : List (Position × Nat) :=
  stableSort (fun a b => a.2 < b.2)
    (positions.map (fun pos => (pos, (get_candidates_for_position pos players).length)))

/-- Embeds _create_candidate_sort_key (lineup_utils.py:299-331): the key is
(times this position was already played, flexibility with 99 for an empty
preference list). -/
def candidate_sort_key (position_id : String) (h : Hist) (player : Player) :
    Nat × Nat :=
  let position_count := (histGet h player.id).count position_id
  let flexibility :=
    if player.position_preferences.isEmpty then 99
    else player.position_preferences.length
  (position_count, flexibility)

/-- Lexicographic comparison of candidate sort keys, as Python compares the
key tuples. -/
def keyLt (position_id : String) (h : Hist) (a b : Player) : Bool :=
  let ka := candidate_sort_key position_id h a
  let kb := candidate_sort_key position_id h b
  ka.1 < kb.1 || (ka.1 == kb.1 && ka.2 < kb.2)

/-- The look-ahead position list of lineup_utils.py:90-93: every position of
the (full, precomputed) scarcity list whose id differs from the current
position's id. -/
def lookahead_position_ids (scarcity_all : List (Position × Nat))
    (position : Position) : List String :=
  ((scarcity_all.map (fun e => e.1)).filter
      (fun pos => ! (pos.id == position.id))).map (fun pos => pos.id)

/-- One candidate's look-ahead test (lineup_utils.py:87-102): drop every
pool player sharing the candidate's id and check the remaining different-id
positions are fillable (vacuously when there are none). -/
def lookahead_passes (scarcity_all : List (Position × Nat)) (position : Position)
    (remaining_players : List Player) (candidate : Player) : Bool :=
  let temp_remaining :=
    remaining_players.filter (fun p => ! (p.id == candidate.id))
  let remaining_position_ids := lookahead_position_ids scarcity_all position
  remaining_position_ids.isEmpty ||
    can_fill_all_positions temp_remaining remaining_position_ids []

/-- The for-loop of lineup_utils.py:86-106 that walks the sorted candidates,
breaking at the first look-ahead pass, returning none when the loop falls
through (chosen_player stays None). -/
def findChosen (scarcity_all : List (Position × Nat)) (position : Position)
    (remaining_players : List Player) : List Player → Option Player
  | [] => none
  | candidate :: rest =>
    if lookahead_passes scarcity_all position remaining_players candidate then
      some candidate
    else findChosen scarcity_all position remaining_players rest

/-- The chosen player for one position: the loop's break value, or the
first-ranked candidate when no candidate passed (lineup_utils.py:104-106). -/
def chooseCandidate (scarcity_all : List (Position × Nat)) (position : Position)
    (remaining_players : List Player) (first : Player) (candidates : List Player) :
    Player :=
  match findChosen scarcity_all position remaining_players candidates with
  | some c => c
  | none => first

/-- The candidate list for one position (lineup_utils.py:65-76): eligible
players from the current pool, restricted to the must-play subset when any
must-play player is eligible, stable-sorted by the rotation/flexibility
key. -/
def sorted_candidates (must_play : List Player) (h : Hist) (position : Position)
    (remaining_players : List Player) : List Player :=
  let candidates0 := get_candidates_for_position position remaining_players
  let must_play_candidates := candidates0.filter (fun p => must_play.contains p)
  let candidates1 :=
    if must_play_candidates.isEmpty then candidates0 else must_play_candidates
  stableSort (keyLt position.id h) candidates1

/-- The per-position body of assign_positions_smart's main loop
(lineup_utils.py:63-113), iterating over the scarcity-ordered positions while
removing each chosen player from the pool. -/
def assignLoop (scarcity_all : List (Position × Nat)) (must_play : List Player)
    (h : Hist) : List (Position × Nat) → List Player →
    List PositionAssignment → Except String (List PositionAssignment)
  | [], _, acc => .ok acc
  | (position, _) :: rest, remaining_players, acc =>
    match sorted_candidates must_play h position remaining_players with
    | [] => .error "No candidates available for position"
    | first :: later_candidates =>
      let chosen := chooseCandidate scarcity_all position remaining_players
        first (first :: later_candidates)
      assignLoop scarcity_all must_play h rest (remaining_players.erase chosen)
        (acc ++ [⟨chosen, position.id⟩])

/-- Embeds assign_positions_smart (lineup_utils.py:14-115): feasibility
pre-check on the full position list, then scarcity-ordered greedy assignment
with one-ply look-ahead; ValueError becomes Except.error. -/
def assign_positions_smart (available_players : List Player)
    (available_positions : List Position) (must_play_players : List Player)
    (player_position_history : Hist) :
    Except String (List PositionAssignment) :=
  let position_ids := available_positions.map (fun p => p.id)
  if can_fill_all_positions available_players position_ids [] then
    let position_scarcity :=
      calculate_position_scarcity available_positions available_players
    assignLoop position_scarcity must_play_players player_position_history
      position_scarcity available_players []
  else .error "Cannot fill all positions with available players"

/-- Embeds the SportRules fields that generation reads
(sport_config.py). -/
structure SportRules where
  total_positions : Nat
  required_positions : List String
deriving DecidableEq, Repr

/-- Embeds the SportConfig fields that generation reads
(sport_config.py). -/
structure SportConfig where
  positions : List Position
  rules : SportRules
deriving DecidableEq, Repr

/-- Embeds the game_info dictionary keys the generators read: presence of
game_id and team_id, plus the optional num_periods (baseball) and num_sets
(volleyball) entries. -/
structure GameInfo where
  game_id : Option String
  team_id : Option String
  num_periods : Option Nat
  num_sets : Option Nat
deriving DecidableEq, Repr

/-- Embeds LineupGenerator._validate_game_info (base.py:193-210): game_id
and team_id must be present. -/
def validate_game_info (game_info : GameInfo) : List String :=
  (if game_info.game_id.isNone then ["game_info missing required field: game_id"]
   else []) ++
  (if game_info.team_id.isNone then ["game_info missing required field: team_id"]
   else [])

/-- Embeds LineupGenerator.validate_players (base.py:64-106): minimum count,
non-empty id and name, and a candidate for every required position. -/
def validate_players (config : SportConfig) (players : List Player) :
    List String :=
  (if players.length < config.rules.total_positions then
    ["Insufficient players"] else []) ++
  (players.foldl (fun errs p =>
    errs ++ (if p.id = "" then ["Player missing ID"] else []) ++
      (if p.name = "" then ["Player missing name"] else [])) []) ++
  (config.rules.required_positions.foldl (fun errs req =>
    errs ++ (if players.any (fun p => p.can_play_position req) then []
      else ["No player available for required position"])) [])

/-- Pitcher history: player id to the list of period numbers pitched. -/
abbrev PitcherHist := List (String × List Nat)

/-- Bench tracker: player id to consecutive benched-period count. -/
abbrev BenchTracker := List (String × Nat)

/-- Dict lookup with default for the pitcher history. -/
def pitcherGet (h : PitcherHist) (pid : String) : List Nat :=
  match h.find? (fun kv => kv.1 == pid) with
  | some kv => kv.2
  | none => []

/-- Dict lookup with default 0 for the bench tracker. -/
def benchGet (bt : BenchTracker) (pid : String) : Nat :=
  match bt.find? (fun kv => kv.1 == pid) with
  | some kv => kv.2
  | none => 0

/-- bench_tracker[pid] = n (the key is always present, having been seeded
with every player id at call entry). -/
def benchSet (bt : BenchTracker) (pid : String) (n : Nat) : BenchTracker :=
  bt.map (fun kv => if kv.1 == pid then (kv.1, n) else kv)

/-- Embeds BaseballLineupGenerator._get_eligible_pitchers
(baseball.py:207-240): can play "P" and (period 1 or did not pitch in the
immediately preceding period). -/
def get_eligible_pitchers (players : List Player) (pitcher_history : PitcherHist)
    (current_period : Nat) : List Player :=
  players.filter (fun player =>
    player.can_play_position "P" &&
      (current_period == 1 ||
        ¬ (pitcherGet pitcher_history player.id).contains (current_period - 1)))

/-- Embeds _get_must_play_players (baseball.py:242-267 and
volleyball.py:208-232, identical logic): empty in period 1, otherwise every
player whose consecutive bench count is at least 2. -/
def get_must_play_players (players : List Player) (bench_tracker : BenchTracker)
    (current_period : Nat) : List Player :=
  if current_period == 1 then []
  else players.filter (fun player => 2 ≤ benchGet bench_tracker player.id)

/-- Embeds the eligibility-masking loop of baseball.py:143-174: a player who
can pitch but is not eligible this period has "P" filtered from their
preferences; a pitcher-only player instead receives every non-"P" configured
position; all other players pass through unchanged.  Note a player with an
empty preference list satisfies can_play_position "P" yet keeps an empty
list, so the mask leaves them able to pitch.  The branch values are inlined
where Python names modified_prefs and all_non_p_positions. -/
def mask_pitcher (config : SportConfig) (eligible_pitcher_ids : List String)
    (player : Player) : Player :=
  if player.can_play_position "P" &&
      ! eligible_pitcher_ids.contains player.id then
    if (player.position_preferences.filter (fun pos => ! (pos == "P"))).isEmpty
        && player.position_preferences == ["P"] then
      let all_non_p :=
        (config.positions.map (fun pos => pos.id)).filter
          (fun pos => ! (pos == "P"))
      { player with position_preferences := all_non_p }
    else
      let modified_prefs :=
        player.position_preferences.filter (fun pos => ! (pos == "P"))
      { player with position_preferences := modified_prefs }
  else player

/-- The whole masking loop applied to every player. -/
def filter_ineligible_pitchers (config : SportConfig) (players : List Player)
    (eligible_pitcher_ids : List String) : List Player :=
  players.map (mask_pitcher config eligible_pitcher_ids)

/-- The cross-period state the baseball generator threads through one
generate() call (baseball.py:74-77). -/
structure BaseballState where
  position_history : Hist
  pitcher_history : PitcherHist
  bench_tracker : BenchTracker
deriving DecidableEq, Repr

/-- Embeds BaseballLineupGenerator._generate_period_lineup
(baseball.py:101-205). -/
def generate_period_lineup (config : SportConfig) (period : Nat)
    (players : List Player) (st : BaseballState) : Except String Lineup :=
  let start_inning := (period - 1) * 2 + 1
  let end_inning := period * 2
  let period_name :=
    "Innings " ++ toString start_inning ++ "-" ++ toString end_inning
  let eligible_pitchers := get_eligible_pitchers players st.pitcher_history period
  if eligible_pitchers.isEmpty then
    .error "No eligible pitchers for period"
  else
    let must_play_players := get_must_play_players players st.bench_tracker period
    let eligible_pitcher_ids := eligible_pitchers.map (fun p => p.id)
    let filtered_players :=
      filter_ineligible_pitchers config players eligible_pitcher_ids
    match assign_positions_smart filtered_players config.positions
        must_play_players st.position_history with
    | .error e => .error e
    | .ok assignments =>
      if assignments.length == config.positions.length then
        let assigned_player_ids := assignments.map (fun a => a.player.id)
        let bench_players :=
          players.filter (fun p => ! assigned_player_ids.contains p.id)
        .ok { period := period, period_name := period_name,
              assignments := assignments, bench_players := bench_players }
      else .error "Not all positions were assigned in period"

/-- Embeds _update_pitcher_history (baseball.py:269-281). -/
def update_pitcher_history (lineup : Lineup) (ph : PitcherHist) : PitcherHist :=
  lineup.assignments.foldl (fun ph a =>
    if a.position == "P" then
      if ph.any (fun kv => kv.1 == a.player.id) then
        ph.map (fun kv =>
          if kv.1 == a.player.id then (kv.1, kv.2 ++ [lineup.period]) else kv)
      else ph ++ [(a.player.id, [lineup.period])]
    else ph) ph

/-- Embeds _update_bench_tracker (baseball.py:283-300): reset to 0 for every
assigned player, increment for everyone else. -/
def update_bench_tracker (lineup : Lineup) (players : List Player)
    (bt : BenchTracker) : BenchTracker :=
  let assigned_player_ids := lineup.assignments.map (fun a => a.player.id)
  players.foldl (fun bt p =>
    if assigned_player_ids.contains p.id then benchSet bt p.id 0
    else benchSet bt p.id (benchGet bt p.id + 1)) bt

/-- The per-period loop of BaseballLineupGenerator.generate
(baseball.py:82-97): build the period lineup, then update position history,
pitcher history and bench tracker before the next period. -/
def baseball_run (config : SportConfig) (players : List Player) :
    List Nat → BaseballState → Except String (List Lineup × BaseballState)
  | [], st => .ok ([], st)
  | period :: rest, st =>
    match generate_period_lineup config period players st with
    | .error e => .error e
    | .ok lineup =>
      let st2 : BaseballState :=
        { position_history :=
            track_player_position_history lineup.assignments st.position_history,
          pitcher_history := update_pitcher_history lineup st.pitcher_history,
          bench_tracker := update_bench_tracker lineup players st.bench_tracker }
      match baseball_run config players rest st2 with
      | .error e => .error e
      | .ok (lineups, stF) => .ok (lineup :: lineups, stF)

/-- Embeds BaseballLineupGenerator.generate (baseball.py:44-99).  The Python
method mutates the caller's player_history dict in place via
track_player_position_history; here the final state of that dict is returned
alongside the lineups. -/
def baseball_generate (config : SportConfig) (players : List Player)
    (game_info : GameInfo) (player_history : Option Hist) :
    Except String (List Lineup × Hist) :=
  if (validate_game_info game_info).isEmpty then
   if (validate_players config players).isEmpty then
    let position_history := player_history.getD []
    let st0 : BaseballState :=
      { position_history := position_history, pitcher_history := [],
        bench_tracker := players.map (fun p => (p.id, 0)) }
    let num_periods := game_info.num_periods.getD 3
    match baseball_run config players (List.range' 1 num_periods) st0 with
    | .error e => .error e
    | .ok (lineups, stF) => .ok (lineups, stF.position_history)
   else .error "Invalid players"
  else .error "Invalid game_info"

/-- Embeds VolleyballLineupGenerator._get_required_positions
(volleyball.py:163-206): one S, two OH, two MB and one OPP (falling back to
L then DS); any identifier absent from the configuration is silently
skipped. -/
def vb_required_positions (config : SportConfig) : List Position :=
  (match config.positions.find? (fun p => p.id == "S") with
   | some setter => [setter]
   | none => []) ++
  (match config.positions.find? (fun p => p.id == "OH") with
   | some oh => [oh, oh]
   | none => []) ++
  (match config.positions.find? (fun p => p.id == "MB") with
   | some mb => [mb, mb]
   | none => []) ++
  (match config.positions.find? (fun p => p.id == "OPP") with
   | some opp => [opp]
   | none =>
     match config.positions.find? (fun p => p.id == "L") with
     | some l => [l]
     | none =>
       match config.positions.find? (fun p => p.id == "DS") with
       | some ds => [ds]
       | none => [])

/-- Embeds VolleyballLineupGenerator._generate_set_lineup
(volleyball.py:111-161): assign the required positions, fail when fewer
assignments than required positions come back, record the position history,
and compute the bench; returns (assignments, bench, updated history). -/
def generate_set_lineup (config : SportConfig) (players : List Player)
    (must_play_players : List Player) (position_history : Hist) :
    Except String (List PositionAssignment × List Player × Hist) :=
  let required_positions := vb_required_positions config
  let eligible_players := players
  match assign_positions_smart eligible_players required_positions
      must_play_players position_history with
  | .error e => .error e
  | .ok assignments =>
    if assignments.isEmpty || assignments.length < required_positions.length then
      .error "Cannot fill all positions with available players"
    else
      let position_history2 :=
        track_player_position_history assignments position_history
      let assigned_player_ids := assignments.map (fun a => a.player.id)
      let bench_players :=
        players.filter (fun p => ! assigned_player_ids.contains p.id)
      .ok (assignments, bench_players, position_history2)

/-- The cross-set state the volleyball generator threads through one
generate() call (volleyball.py:70-72). -/
structure VolleyballState where
  position_history : Hist
  bench_tracker : BenchTracker
deriving DecidableEq, Repr

/-- The per-set loop of VolleyballLineupGenerator.generate
(volleyball.py:77-107): must-play from the bench tracker, set lineup, bench
tracker update, then the Lineup record. -/
def volleyball_run (config : SportConfig) (players : List Player) :
    List Nat → VolleyballState → Except String (List Lineup × VolleyballState)
  | [], st => .ok ([], st)
  | set_num :: rest, st =>
    let must_play_players :=
      get_must_play_players players st.bench_tracker set_num
    match generate_set_lineup config players must_play_players
        st.position_history with
    | .error e => .error e
    | .ok (assignments, bench_players, position_history2) =>
      let bench_tracker2 := players.foldl (fun bt p =>
        if bench_players.contains p then benchSet bt p.id (benchGet bt p.id + 1)
        else benchSet bt p.id 0) st.bench_tracker
      let lineup : Lineup :=
        { period := set_num, period_name := "Set " ++ toString set_num,
          assignments := assignments, bench_players := bench_players }
      match volleyball_run config players rest
          { position_history := position_history2,
            bench_tracker := bench_tracker2 } with
      | .error e => .error e
      | .ok (lineups, stF) => .ok (lineup :: lineups, stF)

/-- Embeds VolleyballLineupGenerator.generate (volleyball.py:40-109); note
the set count is read from the num_sets key (not num_periods), defaulting to
3.  As for baseball, the final state of the caller's player_history dict is
returned alongside the lineups. -/
def volleyball_generate (config : SportConfig) (players : List Player)
    (game_info : GameInfo) (player_history : Option Hist) :
    Except String (List Lineup × Hist) :=
  if (validate_game_info game_info).isEmpty then
   if (validate_players config players).isEmpty then
    let position_history := player_history.getD []
    let st0 : VolleyballState :=
      { position_history := position_history,
        bench_tracker := players.map (fun p => (p.id, 0)) }
    let num_sets := game_info.num_sets.getD 3
    match volleyball_run config players (List.range' 1 num_sets) st0 with
    | .error e => .error e
    | .ok (lineups, stF) => .ok (lineups, stF.position_history)
   else .error "Invalid players"
  else .error "Invalid game_info"

/-- Except result is an error (models the Python call raising ValueError). -/
def isErr : Except String α → Bool
  | .error _ => true
  | .ok _ => false

/-- Modelled from the spec (section 4.1 contract): some one-to-one assignment
of distinct players to all listed positions exists in which every player can
play the position they receive; slot i of the position list gets player f i,
and injectivity makes the players pairwise distinct even when the same
position identifier occurs more than once in the list. -/
def existsInjFill (players : List Player) (position_ids : List String) : Prop :=
  ∃ f : Fin position_ids.length → Fin players.length,
    Function.Injective f ∧
      ∀ i, (players.get (f i)).can_play_position (position_ids.get i) = true

instance existsInjFillDecidable (players : List Player)
    (position_ids : List String) :
    Decidable (existsInjFill players position_ids) := by
  unfold existsInjFill
  infer_instance

/-- Modelled from the spec (section 4.2 step 3d wording): the look-ahead for
one candidate checks the positions NOT YET PROCESSED this period (the tail
of the scarcity order), not every different-identifier position. -/
def lookahead_passes_claim (rest : List (Position × Nat))
    (remaining_players : List Player) (candidate : Player) : Bool :=
  let temp_remaining :=
    remaining_players.filter (fun p => ! (p.id == candidate.id))
  let remaining_position_ids := rest.map (fun e => e.1.id)
  remaining_position_ids.isEmpty ||
    can_fill_all_positions temp_remaining remaining_position_ids []

/-- Modelled from the spec: the assignment loop as the claim describes it,
identical to assignLoop except that the look-ahead consults only the
not-yet-processed positions. -/
def assignLoopClaim (must_play : List Player) (h : Hist) :
    List (Position × Nat) → List Player → List PositionAssignment →
    Except String (List PositionAssignment)
  | [], _, acc => .ok acc
  | (position, _) :: rest, remaining_players, acc =>
    match sorted_candidates must_play h position remaining_players with
    | [] => .error "No candidates available for position"
    | first :: later_candidates =>
      let chosen := ((first :: later_candidates).find?
        (lookahead_passes_claim rest remaining_players)).getD first
      assignLoopClaim must_play h rest (remaining_players.erase chosen)
        (acc ++ [⟨chosen, position.id⟩])

/-- Modelled from the spec: assign_positions_smart as the claim reads it
(identical except for the look-ahead position set). -/
def assign_positions_smart_claim (available_players : List Player)
    (available_positions : List Position) (must_play_players : List Player)
    (player_position_history : Hist) :
    Except String (List PositionAssignment) :=
  let position_ids := available_positions.map (fun p => p.id)
  if can_fill_all_positions available_players position_ids [] then
    let position_scarcity :=
      calculate_position_scarcity available_positions available_players
    assignLoopClaim must_play_players player_position_history
      position_scarcity available_players []
  else .error "Cannot fill all positions with available players"

/-- The partition property of one lineup against the full player list: no
player id is both assigned and benched, and together they are exactly the
input ids. -/
def lineup_partition (players : List Player) (l : Lineup) : Prop :=
  (∀ pid, pid ∈ l.assignments.map (fun a => a.player.id) →
    pid ∉ l.bench_players.map Player.id) ∧
  (∀ pid, (pid ∈ l.assignments.map (fun a => a.player.id) ∨
    pid ∈ l.bench_players.map Player.id) ↔ pid ∈ players.map Player.id)

/-- Total number of recorded position entries in a history dict. -/
def histSize (h : Hist) : Nat :=
  (h.map (fun kv => kv.2.length)).sum

/-- The player assigned to position "P" in a lineup, when any. -/
def pitcherId (l : Lineup) : Option String :=
  (l.assignments.find? (fun a => a.position == "P")).map (fun a => a.player.id)

/-!  Concrete instances used by counterexamples and witnesses.  -/

/-- Feasibility-checker input: can play P and X. -/
def plPX : Player := { id := "a", name := "A", position_preferences := ["P", "X"] }

/-- Feasibility-checker input: can play only P. -/
def plPonly : Player := { id := "b", name := "B", position_preferences := ["P"] }

/-- A position with identifier A. -/
def posA : Position := { id := "A", name := "A" }

/-- A position with identifier B. -/
def posB : Position := { id := "B", name := "B" }

/-- A position with identifier K. -/
def posK : Position := { id := "K", name := "K" }

/-- Engine input: can play K and B. -/
def plKB : Player := { id := "c", name := "c", position_preferences := ["K", "B"] }

/-- Engine input: can play A and B. -/
def plAB : Player := { id := "b", name := "b", position_preferences := ["A", "B"] }

/-- Engine input: can play A and Z (Z is not a requested position). -/
def plAZ : Player := { id := "a", name := "a", position_preferences := ["A", "Z"] }

/-- Look-ahead divergence input: can play only A. -/
def plOnlyA : Player := { id := "p", name := "p", position_preferences := ["A"] }

/-- Look-ahead divergence input: can play A and B. -/
def plBothAB : Player := { id := "q", name := "q", position_preferences := ["A", "B"] }

/-- Look-ahead divergence input: can play only B. -/
def plOnlyB : Player := { id := "r", name := "r", position_preferences := ["B"] }

/-- The nine standard baseball positions, in configuration order (as in the
repository's baseball fixture). -/
def bbPositions : List Position :=
  [{ id := "P", name := "Pitcher" }, { id := "C", name := "Catcher" },
   { id := "1B", name := "First Base" }, { id := "2B", name := "Second Base" },
   { id := "3B", name := "Third Base" }, { id := "SS", name := "Shortstop" },
   { id := "LF", name := "Left Field" }, { id := "CF", name := "Center Field" },
   { id := "RF", name := "Right Field" }]

/-- Baseball configuration matching the repository's fixture: 9 positions,
P and C required. -/
def bbConfig : SportConfig :=
  { positions := bbPositions,
    rules := { total_positions := 9, required_positions := ["P", "C"] } }

/-- Baseball input: an empty-preference (play-anywhere) player. -/
def plX : Player := { id := "x", name := "X", position_preferences := [] }

/-- Baseball input: can play P and C. -/
def plY : Player := { id := "y", name := "Y", position_preferences := ["P", "C"] }

/-- Baseball input: can play P and 1B. -/
def plZ : Player := { id := "z", name := "Z", position_preferences := ["P", "1B"] }

/-- Baseball input: a single-position specialist. -/
def mkW (i : Nat) (pos : String) : Player :=
  { id := "w" ++ toString i, name := "W", position_preferences := [pos] }

/-- Nine baseball players: one play-anywhere, two part-time pitchers, six
specialists. -/
def bbPlayers : List Player :=
  [plX, plY, plZ, mkW 1 "2B", mkW 2 "3B", mkW 3 "SS", mkW 4 "LF", mkW 5 "CF",
   mkW 6 "RF"]

/-- game_info with both required keys and num_periods 2. -/
def bbGameInfo2 : GameInfo :=
  { game_id := some "g", team_id := some "t", num_periods := some 2,
    num_sets := none }

/-- Caller-supplied history: x has already played each non-P position once
(so the per-position rotation counts do not pull x off the bench early). -/
def bbHistX : Hist :=
  [("x", ["C", "1B", "2B", "3B", "SS", "LF", "CF", "RF"])]

/-- The four volleyball positions of the deployment configuration. -/
def vbPositions : List Position :=
  [{ id := "S", name := "Setter" }, { id := "OH", name := "Outside Hitter" },
   { id := "MB", name := "Middle Blocker" }, { id := "OPP", name := "Opposite" }]

/-- Volleyball configuration: 6 total positions, S required. -/
def vbConfig : SportConfig :=
  { positions := vbPositions,
    rules := { total_positions := 6, required_positions := ["S"] } }

/-- Volleyball input: the starting setter. -/
def plS3 : Player := { id := "s3", name := "S3", position_preferences := ["S"] }

/-- Volleyball input: outside hitter one. -/
def plO1 : Player := { id := "o1", name := "O1", position_preferences := ["OH"] }

/-- Volleyball input: outside hitter two. -/
def plO2 : Player := { id := "o2", name := "O2", position_preferences := ["OH"] }

/-- Volleyball input: middle blocker one. -/
def plB1 : Player := { id := "b1", name := "B1", position_preferences := ["MB"] }

/-- Volleyball input: middle blocker two. -/
def plB2 : Player := { id := "b2", name := "B2", position_preferences := ["MB"] }

/-- Volleyball input: the opposite. -/
def plP1 : Player := { id := "p1", name := "P1", position_preferences := ["OPP"] }

/-- Volleyball input: backup setter who can only set. -/
def plM1 : Player := { id := "m1", name := "M1", position_preferences := ["S"] }

/-- Volleyball input: backup who can set or hit outside. -/
def plM2 : Player :=
  { id := "m2", name := "M2", position_preferences := ["S", "OH"] }

/-- Eight volleyball players; m1 and m2 sit out the first two sets. -/
def vbPlayers : List Player :=
  [plS3, plO1, plO2, plB1, plB2, plP1, plM1, plM2]

/-- Caller-supplied history making m1 and m2 rank behind the starters. -/
def vbHistMust : Hist := [("m1", ["S", "S"]), ("m2", ["S", "OH", "OH"])]

/-- game_info with only the required keys (defaults apply). -/
def vbGameInfo : GameInfo :=
  { game_id := some "g", team_id := some "t", num_periods := none,
    num_sets := none }

/-- game_info requesting a single set. -/
def vbGameInfo1 : GameInfo :=
  { game_id := some "g", team_id := some "t", num_periods := none,
    num_sets := some 1 }

/-- game_info carrying num_periods 5 but no num_sets. -/
def vbGameInfoNP5 : GameInfo :=
  { game_id := some "g", team_id := some "t", num_periods := some 5,
    num_sets := none }

/-- A play-anywhere volleyball player. -/
def mkU (i : Nat) : Player :=
  { id := "u" ++ toString i, name := "U", position_preferences := [] }

/-- Six play-anywhere players. -/
def uPlayers : List Player := [mkU 1, mkU 2, mkU 3, mkU 4, mkU 5, mkU 6]

/-- Volleyball configuration defining none of OPP, L, DS. -/
def vbConfigNoOpp : SportConfig :=
  { positions := [{ id := "S", name := "Setter" },
     { id := "OH", name := "Outside Hitter" },
     { id := "MB", name := "Middle Blocker" }],
    rules := { total_positions := 6, required_positions := ["S"] } }

/-- One-position baseball configuration for small witness runs. -/
def bb1Config : SportConfig :=
  { positions := [{ id := "P", name := "Pitcher" }],
    rules := { total_positions := 1, required_positions := ["P"] } }

/-- game_info with both required keys and num_periods 1. -/
def bbGameInfo1 : GameInfo :=
  { game_id := some "g", team_id := some "t", num_periods := some 1,
    num_sets := none }

/-- One-position volleyball configuration for small witness runs. -/
def vb1Config : SportConfig :=
  { positions := [{ id := "S", name := "Setter" }],
    rules := { total_positions := 1, required_positions := ["S"] } }

/-- The setter position record. -/
def posS : Position := { id := "S", name := "Setter" }

/-- An explicit assignment of the volleyball counterexample roster that
plays both must-play players m1 and m2 at once (m1 sets, m2 hits outside),
showing that benching m1 was not forced by infeasibility. -/
def c5BothAssignment : List (Player × String) :=
  [(plM1, "S"), (plO1, "OH"), (plM2, "OH"), (plB1, "MB"), (plB2, "MB"),
   (plP1, "OPP")]

/-- The lineup of the one-period baseball witness run. -/
def bb1Lineup : Lineup :=
  { period := 1, period_name := "Innings 1-2",
    assignments := [⟨plY, "P"⟩], bench_players := [] }

/-- The lineup of the one-set volleyball witness run. -/
def vb1Lineup : Lineup :=
  { period := 1, period_name := "Set 1",
    assignments := [⟨plS3, "S"⟩], bench_players := [] }

/-! Helper lemmas about the embedding. -/

theorem contains_true_iff [BEq α] [LawfulBEq α] (l : List α) (a : α) :
    l.contains a = true ↔ a ∈ l := by simp

theorem stableInsert_perm (lt : α → α → Bool) (x : α) (l : List α) :
    (stableInsert lt x l).Perm (x :: l) := by
  induction l with
  | nil => exact List.Perm.refl _
  | cons y ys ih =>
    unfold stableInsert
    by_cases hlt : lt y x = true
    · rw [if_pos hlt]
      exact (ih.cons y).trans (List.Perm.swap x y ys)
    · rw [if_neg hlt]

theorem stableSort_perm (lt : α → α → Bool) (l : List α) :
    (stableSort lt l).Perm l := by
  induction l with
  | nil => exact List.Perm.refl _
  | cons x xs ih => exact (stableInsert_perm lt x _).trans (ih.cons x)

theorem mem_stableSort (lt : α → α → Bool) (l : List α) (a : α) :
    a ∈ stableSort lt l ↔ a ∈ l :=
  (stableSort_perm lt l).mem_iff

theorem findChosen_eq_find (scar : List (Position × Nat)) (position : Position)
    (pool : List Player) (cands : List Player) :
    findChosen scar position pool cands =
      cands.find? (lookahead_passes scar position pool) := by
  induction cands with
  | nil => rfl
  | cons c cs ih =>
    unfold findChosen
    by_cases hc : lookahead_passes scar position pool c = true
    · rw [if_pos hc, List.find?_cons_of_pos _ hc]
    · rw [if_neg hc, ih, List.find?_cons_of_neg _ hc]

theorem chooseCandidate_mem (scar : List (Position × Nat)) (position : Position)
    (pool : List Player) (first : Player) (cands : List Player)
    (hfirst : first ∈ cands) :
    chooseCandidate scar position pool first cands ∈ cands := by
  unfold chooseCandidate
  cases hfc : findChosen scar position pool cands with
  | none => exact hfirst
  | some c =>
    rw [findChosen_eq_find] at hfc
    exact List.mem_of_find?_eq_some hfc

theorem sorted_candidates_mem (must_play : List Player) (h : Hist)
    (position : Position) (pool : List Player) (c : Player)
    (hc : c ∈ sorted_candidates must_play h position pool) :
    c ∈ pool ∧ c.can_play_position position.id = true := by
  simp only [sorted_candidates] at hc
  rw [mem_stableSort] at hc
  have hc0 : c ∈ get_candidates_for_position position pool := by
    split at hc
    · exact hc
    · exact (List.mem_filter.mp hc).1
  simpa [get_candidates_for_position, List.mem_filter] using hc0

theorem sorted_candidates_single_mustplay (M : Player) (h : Hist)
    (position : Position) (pool : List Player)
    (hM : M ∈ pool) (hplay : M.can_play_position position.id = true) :
    ∀ c ∈ sorted_candidates [M] h position pool, c = M := by
  intro c hc
  simp only [sorted_candidates] at hc
  rw [mem_stableSort] at hc
  have hMc : M ∈ (get_candidates_for_position position pool).filter
      (fun p => ([M] : List Player).contains p) := by
    rw [List.mem_filter]
    refine ⟨?_, by simp⟩
    simp [get_candidates_for_position, List.mem_filter, hM, hplay]
  have hne : ((get_candidates_for_position position pool).filter
      (fun p => ([M] : List Player).contains p)).isEmpty = false := by
    cases hemp : ((get_candidates_for_position position pool).filter
        (fun p => ([M] : List Player).contains p)).isEmpty
    · rfl
    · rw [List.isEmpty_iff] at hemp
      rw [hemp] at hMc
      cases hMc
  rw [if_neg (by rw [hne]; exact Bool.false_ne_true)] at hc
  have := (List.mem_filter.mp hc).2
  simpa using this

theorem assignLoop_mem_of_mem_acc (scar : List (Position × Nat))
    (must_play : List Player) (h : Hist) :
    ∀ (todo : List (Position × Nat)) (pool : List Player)
      (acc l : List PositionAssignment),
      assignLoop scar must_play h todo pool acc = .ok l → ∀ a ∈ acc, a ∈ l := by
  intro todo
  induction todo with
  | nil =>
    intro pool acc l hok a ha
    simp only [assignLoop] at hok
    cases hok
    exact ha
  | cons e rest ih =>
    obtain ⟨position, n⟩ := e
    intro pool acc l hok a ha
    simp only [assignLoop] at hok
    cases hsc : sorted_candidates must_play h position pool with
    | nil => rw [hsc] at hok; exact Except.noConfusion hok
    | cons first later =>
      rw [hsc] at hok
      exact ih _ _ _ hok a (List.mem_append_left _ ha)

theorem assignLoop_player_mem (scar : List (Position × Nat))
    (must_play : List Player) (h : Hist) :
    ∀ (todo : List (Position × Nat)) (pool : List Player)
      (acc l : List PositionAssignment),
      assignLoop scar must_play h todo pool acc = .ok l →
      ∀ a ∈ l, a ∈ acc ∨ a.player ∈ pool := by
  intro todo
  induction todo with
  | nil =>
    intro pool acc l hok a ha
    simp only [assignLoop] at hok
    cases hok
    exact Or.inl ha
  | cons e rest ih =>
    obtain ⟨position, n⟩ := e
    intro pool acc l hok a ha
    simp only [assignLoop] at hok
    cases hsc : sorted_candidates must_play h position pool with
    | nil => rw [hsc] at hok; exact Except.noConfusion hok
    | cons first later =>
      rw [hsc] at hok
      have hchs : chooseCandidate scar position pool first (first :: later) ∈
          sorted_candidates must_play h position pool := by
        rw [hsc]
        exact chooseCandidate_mem scar position pool first _
          (List.mem_cons_self _ _)
      have hchpool : (chooseCandidate scar position pool first
          (first :: later)) ∈ pool :=
        (sorted_candidates_mem must_play h position pool _ hchs).1
      rcases ih _ _ _ hok a ha with hacc | hpool
      · rcases List.mem_append.mp hacc with h1 | h2
        · exact Or.inl h1
        · refine Or.inr ?_
          have ha2 : a = ⟨chooseCandidate scar position pool first
              (first :: later), position.id⟩ := by simpa using h2
          rw [ha2]
          exact hchpool
      · exact Or.inr (List.erase_subset _ _ hpool)

theorem assignLoop_positions (scar : List (Position × Nat))
    (must_play : List Player) (h : Hist) :
    ∀ (todo : List (Position × Nat)) (pool : List Player)
      (acc l : List PositionAssignment),
      assignLoop scar must_play h todo pool acc = .ok l →
      l.map (fun a => a.position) =
        acc.map (fun a => a.position) ++ todo.map (fun e => e.1.id) := by
  intro todo
  induction todo with
  | nil =>
    intro pool acc l hok
    simp only [assignLoop] at hok
    cases hok
    simp
  | cons e rest ih =>
    obtain ⟨position, n⟩ := e
    intro pool acc l hok
    simp only [assignLoop] at hok
    cases hsc : sorted_candidates must_play h position pool with
    | nil => rw [hsc] at hok; exact Except.noConfusion hok
    | cons first later =>
      rw [hsc] at hok
      have := ih _ _ _ hok
      rw [this]
      simp

theorem erase_map_id (pool : List Player) (c : Player)
    (hnd : (pool.map Player.id).Nodup) (hc : c ∈ pool) :
    (pool.erase c).map Player.id = (pool.map Player.id).erase c.id := by
  induction pool with
  | nil => cases hc
  | cons p ps ih =>
    by_cases hpc : p = c
    · subst hpc
      simp [List.erase_cons]
    · have hcps : c ∈ ps := by
        rcases List.mem_cons.mp hc with h1 | h1
        · exact absurd h1.symm hpc
        · exact h1
      have hnd2 : (ps.map Player.id).Nodup := by
        rw [List.map_cons] at hnd
        exact (List.nodup_cons.mp hnd).2
      have hpidc : p.id ≠ c.id := by
        intro he
        have hmem : c.id ∈ ps.map Player.id := List.mem_map_of_mem _ hcps
        rw [List.map_cons] at hnd
        rw [← he] at hmem
        exact (List.nodup_cons.mp hnd).1 hmem
      rw [List.erase_cons, if_neg (by simp [hpc]), List.map_cons, List.map_cons,
        List.erase_cons, if_neg (by simp [hpidc]), ih hnd2 hcps]

theorem assignLoop_nodup (scar : List (Position × Nat))
    (must_play : List Player) (h : Hist) :
    ∀ (todo : List (Position × Nat)) (pool : List Player)
      (acc l : List PositionAssignment),
      assignLoop scar must_play h todo pool acc = .ok l →
      (acc.map (fun a => a.player.id) ++ pool.map Player.id).Nodup →
      (l.map (fun a => a.player.id)).Nodup := by
  intro todo
  induction todo with
  | nil =>
    intro pool acc l hok hnd
    simp only [assignLoop] at hok
    cases hok
    exact hnd.of_append_left
  | cons e rest ih =>
    obtain ⟨position, n⟩ := e
    intro pool acc l hok hnd
    simp only [assignLoop] at hok
    cases hsc : sorted_candidates must_play h position pool with
    | nil => rw [hsc] at hok; exact Except.noConfusion hok
    | cons first later =>
      rw [hsc] at hok
      set ch := chooseCandidate scar position pool first (first :: later)
        with hchdef
      have hchs : ch ∈ sorted_candidates must_play h position pool := by
        rw [hsc]
        exact chooseCandidate_mem scar position pool first _
          (List.mem_cons_self _ _)
      have hchpool : ch ∈ pool :=
        (sorted_candidates_mem must_play h position pool _ hchs).1
      have hpoolnd : (pool.map Player.id).Nodup :=
        (List.nodup_append.mp hnd).2.1
      have hidmem : ch.id ∈ pool.map Player.id :=
        List.mem_map_of_mem _ hchpool
      have hperm : (pool.map Player.id).Perm
          (ch.id :: (pool.map Player.id).erase ch.id) :=
        List.perm_cons_erase hidmem
      refine ih _ _ _ hok ?_
      rw [erase_map_id pool _ hpoolnd hchpool]
      have e1 : (acc ++ [(⟨ch, position.id⟩ : PositionAssignment)]).map
            (fun a => a.player.id) ++ (pool.map Player.id).erase ch.id
          = acc.map (fun a => a.player.id) ++
            (ch.id :: (pool.map Player.id).erase ch.id) := by
        simp
      rw [e1]
      exact (hperm.append_left _).nodup_iff.mp hnd

theorem assignLoop_single_mustplay (scar : List (Position × Nat)) (M : Player)
    (h : Hist) :
    ∀ (todo : List (Position × Nat)) (pool : List Player)
      (acc l : List PositionAssignment),
      assignLoop scar [M] h todo pool acc = .ok l →
      M ∈ pool →
      (∃ e ∈ todo, M.can_play_position e.1.id = true) →
      ∃ a ∈ l, a.player = M := by
  intro todo
  induction todo with
  | nil =>
    rintro pool acc l hok hM ⟨e, he, -⟩
    cases he
  | cons ent rest ih =>
    obtain ⟨position, n⟩ := ent
    intro pool acc l hok hM helig
    simp only [assignLoop] at hok
    cases hsc : sorted_candidates [M] h position pool with
    | nil => rw [hsc] at hok; exact Except.noConfusion hok
    | cons first later =>
      rw [hsc] at hok
      set ch := chooseCandidate scar position pool first (first :: later)
        with hchdef
      have hchs : ch ∈ sorted_candidates [M] h position pool := by
        rw [hsc]
        exact chooseCandidate_mem scar position pool first _
          (List.mem_cons_self _ _)
      by_cases hplay : M.can_play_position position.id = true
      · have hchM : ch = M :=
          sorted_candidates_single_mustplay M h position pool hM hplay _ hchs
        have hmem : (⟨ch, position.id⟩ : PositionAssignment) ∈ l := by
          apply assignLoop_mem_of_mem_acc _ _ _ _ _ _ _ hok
          exact List.mem_append_right _ (List.mem_cons_self _ _)
        exact ⟨_, hmem, hchM⟩
      · have hcp := sorted_candidates_mem [M] h position pool _ hchs
        have hne : M ≠ ch := by
          intro he
          rw [← he] at hcp
          exact hplay hcp.2
        have hMpool : M ∈ pool.erase ch := (List.mem_erase_of_ne hne).mpr hM
        have helig2 : ∃ e ∈ rest, M.can_play_position e.1.id = true := by
          rcases helig with ⟨e, he, hel⟩
          rcases List.mem_cons.mp he with h1 | h1
          · rw [h1] at hel
            exact absurd hel hplay
          · exact ⟨e, h1, hel⟩
        exact ih _ _ _ hok hMpool helig2

theorem assign_ok_player_mem (players : List Player)
    (positions : List Position) (must_play : List Player) (h : Hist)
    (l : List PositionAssignment)
    (hok : assign_positions_smart players positions must_play h = .ok l) :
    ∀ a ∈ l, a.player ∈ players := by
  simp only [assign_positions_smart] at hok
  split at hok
  · intro a ha
    rcases assignLoop_player_mem _ _ _ _ _ _ _ hok a ha with h1 | h2
    · cases h1
    · exact h2
  · exact Except.noConfusion hok

theorem assign_ok_positions_perm (players : List Player)
    (positions : List Position) (must_play : List Player) (h : Hist)
    (l : List PositionAssignment)
    (hok : assign_positions_smart players positions must_play h = .ok l) :
    (l.map (fun a => a.position)).Perm (positions.map Position.id) := by
  simp only [assign_positions_smart] at hok
  split at hok
  · have h3 := assignLoop_positions _ _ _ _ _ _ _ hok
    rw [List.map_nil, List.nil_append] at h3
    rw [h3]
    have hp := (stableSort_perm (fun a b => a.2 < b.2)
      (positions.map (fun pos =>
        (pos, (get_candidates_for_position pos players).length)))).map
      (fun e : Position × Nat => e.1.id)
    simp only [calculate_position_scarcity]
    rw [List.map_map] at hp
    exact hp
  · exact Except.noConfusion hok

theorem assign_error_of_not_fillable (players : List Player)
    (positions : List Position) (must_play : List Player) (h : Hist)
    (hnf : can_fill_all_positions players (positions.map (fun p => p.id)) []
      = false) :
    isErr (assign_positions_smart players positions must_play h) = true := by
  simp [assign_positions_smart, hnf, isErr]

theorem assign_ok_nodup (players : List Player) (positions : List Position)
    (must_play : List Player) (h : Hist) (l : List PositionAssignment)
    (hok : assign_positions_smart players positions must_play h = .ok l)
    (hnd : (players.map Player.id).Nodup) :
    (l.map (fun a => a.player.id)).Nodup := by
  simp only [assign_positions_smart] at hok
  split at hok
  · exact assignLoop_nodup _ _ _ _ _ _ _ hok (by simpa using hnd)
  · exact Except.noConfusion hok

theorem assign_ok_length (players : List Player) (positions : List Position)
    (must_play : List Player) (h : Hist) (l : List PositionAssignment)
    (hok : assign_positions_smart players positions must_play h = .ok l) :
    l.length = positions.length := by
  have hp := assign_ok_positions_perm players positions must_play h l hok
  have := hp.length_eq
  simpa using this

theorem mask_pitcher_id (config : SportConfig) (e : List String) (p : Player) :
    (mask_pitcher config e p).id = p.id := by
  unfold mask_pitcher
  split
  · split
    · rfl
    · rfl
  · rfl

theorem filter_ineligible_ids (config : SportConfig) (players : List Player)
    (e : List String) :
    (filter_ineligible_pitchers config players e).map Player.id =
      players.map Player.id := by
  unfold filter_ineligible_pitchers
  rw [List.map_map]
  exact List.map_congr_left (fun p _ => mask_pitcher_id config e p)

theorem generate_period_lineup_ok (config : SportConfig) (period : Nat)
    (players : List Player) (st : BaseballState) (l : Lineup)
    (hok : generate_period_lineup config period players st = .ok l) :
    ∃ asg, assign_positions_smart
        (filter_ineligible_pitchers config players
          ((get_eligible_pitchers players st.pitcher_history period).map
            (fun p => p.id)))
        config.positions
        (get_must_play_players players st.bench_tracker period)
        st.position_history = .ok asg ∧
      l.assignments = asg ∧
      l.bench_players = players.filter
        (fun p => ! (asg.map (fun a => a.player.id)).contains p.id) ∧
      l.period = period := by
  simp only [generate_period_lineup] at hok
  split at hok
  · exact Except.noConfusion hok
  · cases hasg : assign_positions_smart
        (filter_ineligible_pitchers config players
          ((get_eligible_pitchers players st.pitcher_history period).map
            (fun p => p.id)))
        config.positions
        (get_must_play_players players st.bench_tracker period)
        st.position_history with
    | error err => rw [hasg] at hok; exact Except.noConfusion hok
    | ok asg =>
      simp only [hasg] at hok
      split at hok <;>
        first
          | exact Except.noConfusion hok
          | (cases hok; exact ⟨asg, rfl, rfl, rfl, rfl⟩)

theorem baseball_run_mem (config : SportConfig) (players : List Player) :
    ∀ (periods : List Nat) (st : BaseballState) (ls : List Lineup)
      (stF : BaseballState),
      baseball_run config players periods st = .ok (ls, stF) →
      ∀ l ∈ ls, ∃ p st', generate_period_lineup config p players st' = .ok l := by
  intro periods
  induction periods with
  | nil =>
    intro st ls stF hok l hl
    simp only [baseball_run] at hok
    cases hok
    cases hl
  | cons period rest ih =>
    intro st ls stF hok l hl
    cases hgen : generate_period_lineup config period players st with
    | error e => simp only [baseball_run, hgen] at hok; exact Except.noConfusion hok
    | ok lineup =>
      simp only [baseball_run, hgen] at hok
      cases hrec : baseball_run config players rest
          { position_history :=
              track_player_position_history lineup.assignments
                st.position_history,
            pitcher_history := update_pitcher_history lineup st.pitcher_history,
            bench_tracker :=
              update_bench_tracker lineup players st.bench_tracker } with
      | error e => simp only [hrec] at hok; exact Except.noConfusion hok
      | ok pr =>
        obtain ⟨ls2, stF2⟩ := pr
        simp only [hrec, Except.ok.injEq, Prod.mk.injEq] at hok
        obtain ⟨hls, hstF⟩ := hok
        subst hls
        rcases List.mem_cons.mp hl with h1 | h1
        · exact ⟨period, st, by rw [← h1] at hgen; exact hgen⟩
        · exact ih _ _ _ hrec l h1

theorem baseball_generate_run (config : SportConfig) (players : List Player)
    (gi : GameInfo) (ph : Option Hist) (ls : List Lineup) (hF : Hist)
    (hok : baseball_generate config players gi ph = .ok (ls, hF)) :
    ∃ stF, baseball_run config players
        (List.range' 1 (gi.num_periods.getD 3))
        { position_history := ph.getD [],
          pitcher_history := [],
          bench_tracker := players.map (fun p => (p.id, 0)) } = .ok (ls, stF) ∧
      hF = stF.position_history := by
  simp only [baseball_generate] at hok
  split at hok
  · split at hok
    · cases hrun : baseball_run config players
          (List.range' 1 (gi.num_periods.getD 3))
          { position_history := ph.getD [],
            pitcher_history := [],
            bench_tracker := players.map (fun p => (p.id, 0)) } with
      | error e => simp only [hrun] at hok; exact Except.noConfusion hok
      | ok pr =>
        obtain ⟨ls2, stF2⟩ := pr
        simp only [hrun, Except.ok.injEq, Prod.mk.injEq] at hok
        obtain ⟨hls, hhF⟩ := hok
        subst hls
        subst hhF
        exact ⟨stF2, rfl, rfl⟩
    · exact Except.noConfusion hok
  · exact Except.noConfusion hok

theorem generate_set_lineup_ok (config : SportConfig) (players : List Player)
    (mp : List Player) (ph : Hist) (asg : List PositionAssignment)
    (bench : List Player) (ph2 : Hist)
    (hok : generate_set_lineup config players mp ph = .ok (asg, bench, ph2)) :
    assign_positions_smart players (vb_required_positions config) mp ph
      = .ok asg ∧
    bench = players.filter
      (fun p => ! (asg.map (fun a => a.player.id)).contains p.id) := by
  cases hasg : assign_positions_smart players (vb_required_positions config)
      mp ph with
  | error e => simp only [generate_set_lineup, hasg] at hok; exact Except.noConfusion hok
  | ok a =>
    simp only [generate_set_lineup, hasg] at hok
    split at hok
    · exact Except.noConfusion hok
    · simp only [Except.ok.injEq, Prod.mk.injEq] at hok
      obtain ⟨ha, hb, hp⟩ := hok
      subst ha
      subst hb
      exact ⟨rfl, rfl⟩

theorem volleyball_run_mem (config : SportConfig) (players : List Player) :
    ∀ (sets : List Nat) (st : VolleyballState) (ls : List Lineup)
      (stF : VolleyballState),
      volleyball_run config players sets st = .ok (ls, stF) →
      ∀ l ∈ ls, ∃ mp ph asg bench ph2,
        generate_set_lineup config players mp ph = .ok (asg, bench, ph2) ∧
        l.assignments = asg ∧ l.bench_players = bench := by
  intro sets
  induction sets with
  | nil =>
    intro st ls stF hok l hl
    simp only [volleyball_run] at hok
    cases hok
    cases hl
  | cons set_num rest ih =>
    intro st ls stF hok l hl
    cases hset : generate_set_lineup config players
        (get_must_play_players players st.bench_tracker set_num)
        st.position_history with
    | error e => simp only [volleyball_run, hset] at hok; exact Except.noConfusion hok
    | ok tr =>
      obtain ⟨asg, bench, ph2⟩ := tr
      simp only [volleyball_run, hset] at hok
      cases hrec : volleyball_run config players rest
          { position_history := ph2,
            bench_tracker := players.foldl (fun bt p =>
              if bench.contains p then benchSet bt p.id (benchGet bt p.id + 1)
              else benchSet bt p.id 0) st.bench_tracker } with
      | error e => simp only [hrec] at hok; exact Except.noConfusion hok
      | ok pr =>
        obtain ⟨ls2, stF2⟩ := pr
        simp only [hrec, Except.ok.injEq, Prod.mk.injEq] at hok
        obtain ⟨hls, hstF⟩ := hok
        subst hls
        rcases List.mem_cons.mp hl with h1 | h1
        · refine ⟨_, _, asg, bench, ph2, hset, ?_, ?_⟩
          · rw [h1]
          · rw [h1]
        · exact ih _ _ _ hrec l h1

theorem volleyball_generate_run (config : SportConfig) (players : List Player)
    (gi : GameInfo) (ph : Option Hist) (ls : List Lineup) (hF : Hist)
    (hok : volleyball_generate config players gi ph = .ok (ls, hF)) :
    ∃ stF, volleyball_run config players
        (List.range' 1 (gi.num_sets.getD 3))
        { position_history := ph.getD [],
          bench_tracker := players.map (fun p => (p.id, 0)) } = .ok (ls, stF) ∧
      hF = stF.position_history := by
  simp only [volleyball_generate] at hok
  split at hok
  · split at hok
    · cases hrun : volleyball_run config players
          (List.range' 1 (gi.num_sets.getD 3))
          { position_history := ph.getD [],
            bench_tracker := players.map (fun p => (p.id, 0)) } with
      | error e => simp only [hrun] at hok; exact Except.noConfusion hok
      | ok pr =>
        obtain ⟨ls2, stF2⟩ := pr
        simp only [hrun, Except.ok.injEq, Prod.mk.injEq] at hok
        obtain ⟨hls, hhF⟩ := hok
        subst hls
        subst hhF
        exact ⟨stF2, rfl, rfl⟩
    · exact Except.noConfusion hok
  · exact Except.noConfusion hok

theorem partition_of_bench (players : List Player)
    (asg : List PositionAssignment) (l : Lineup)
    (hassign : l.assignments = asg)
    (hbench : l.bench_players = players.filter
      (fun p => ! (asg.map (fun a => a.player.id)).contains p.id))
    (hsub : ∀ pid ∈ asg.map (fun a => a.player.id), pid ∈ players.map Player.id) :
    lineup_partition players l := by
  unfold lineup_partition
  rw [hassign, hbench]
  constructor
  · intro pid hpid hbid
    rcases List.mem_map.mp hbid with ⟨p, hpmem, hpeq⟩
    rcases List.mem_filter.mp hpmem with ⟨-, hpred⟩
    rw [Bool.not_eq_true'] at hpred
    rw [← hpeq] at hpid
    rw [(contains_true_iff _ _).mpr hpid] at hpred
    exact Bool.noConfusion hpred
  · intro pid
    constructor
    · rintro (hp | hp)
      · exact hsub pid hp
      · rcases List.mem_map.mp hp with ⟨p, hpmem, hpeq⟩
        rw [← hpeq]
        exact List.mem_map_of_mem _ (List.mem_filter.mp hpmem).1
    · intro hin
      by_cases hpid : pid ∈ asg.map (fun a => a.player.id)
      · exact Or.inl hpid
      · right
        rcases List.mem_map.mp hin with ⟨p, hpmem, hpeq⟩
        rw [← hpeq]
        refine List.mem_map_of_mem _ (List.mem_filter.mpr ⟨hpmem, ?_⟩)
        rw [Bool.not_eq_true']
        cases hcon : (asg.map (fun a => a.player.id)).contains p.id
        · rfl
        · rw [contains_true_iff] at hcon
          rw [hpeq] at hcon
          exact absurd hcon hpid

theorem histSize_map_update_ge (h : Hist) (pid posid : String) :
    histSize h ≤ histSize (h.map (fun kv =>
      if kv.1 == pid then (kv.1, kv.2 ++ [posid]) else kv)) := by
  induction h with
  | nil => exact Nat.le_refl _
  | cons kv t ih =>
    simp only [histSize, List.map_cons, List.map_map, List.sum_cons] at *
    have hhead : kv.2.length ≤
        ((if kv.1 == pid then (kv.1, kv.2 ++ [posid]) else kv)).2.length := by
      split <;> simp
    exact Nat.add_le_add hhead ih

theorem histSize_map_update_lt (h : Hist) (pid posid : String)
    (hany : h.any (fun kv => kv.1 == pid) = true) :
    histSize h < histSize (h.map (fun kv =>
      if kv.1 == pid then (kv.1, kv.2 ++ [posid]) else kv)) := by
  induction h with
  | nil => cases hany
  | cons kv t ih =>
    simp only [List.any_cons, Bool.or_eq_true] at hany
    by_cases hk : (kv.1 == pid) = true
    · have hge := histSize_map_update_ge t pid posid
      simp only [histSize, List.map_cons, List.map_map, List.sum_cons,
        if_pos hk] at *
      simp only [List.length_append, List.length_cons, List.length_nil]
      omega
    · rcases hany with h1 | h1
      · exact absurd h1 hk
      · have hlt := ih h1
        simp only [histSize, List.map_cons, List.map_map, List.sum_cons,
          if_neg hk] at *
        omega

theorem histSize_lt_histAppend (h : Hist) (pid posid : String) :
    histSize h < histSize (histAppend h pid posid) := by
  unfold histAppend
  split
  · next hany => exact histSize_map_update_lt h pid posid hany
  · have he : histSize (h ++ [(pid, [posid])]) = histSize h + 1 := by
      simp [histSize]
    omega

theorem histSize_le_track (assignments : List PositionAssignment) (h : Hist) :
    histSize h ≤ histSize (track_player_position_history assignments h) := by
  induction assignments generalizing h with
  | nil => exact Nat.le_refl _
  | cons a rest ih =>
    have h1 := histSize_lt_histAppend h a.player.id a.position
    have h2 := ih (histAppend h a.player.id a.position)
    simp only [track_player_position_history, List.foldl_cons] at *
    omega

theorem histSize_lt_track (assignments : List PositionAssignment) (h : Hist)
    (hne : assignments ≠ []) :
    histSize h < histSize (track_player_position_history assignments h) := by
  cases assignments with
  | nil => exact absurd rfl hne
  | cons a rest =>
    have h1 := histSize_lt_histAppend h a.player.id a.position
    have h2 := histSize_le_track rest (histAppend h a.player.id a.position)
    simp only [track_player_position_history, List.foldl_cons] at *
    omega

theorem baseball_run_histSize (config : SportConfig) (players : List Player) :
    ∀ (periods : List Nat) (st : BaseballState) (ls : List Lineup)
      (stF : BaseballState),
      baseball_run config players periods st = .ok (ls, stF) →
      histSize st.position_history ≤ histSize stF.position_history ∧
      (∀ l ∈ ls, l.assignments ≠ [] →
        histSize st.position_history < histSize stF.position_history) := by
  intro periods
  induction periods with
  | nil =>
    intro st ls stF hok
    simp only [baseball_run, Except.ok.injEq, Prod.mk.injEq] at hok
    obtain ⟨hls, hstF⟩ := hok
    subst hstF
    refine ⟨Nat.le_refl _, ?_⟩
    intro l hl
    rw [← hls] at hl
    cases hl
  | cons period rest ih =>
    intro st ls stF hok
    cases hgen : generate_period_lineup config period players st with
    | error e =>
      simp only [baseball_run, hgen] at hok
      exact Except.noConfusion hok
    | ok lineup =>
      simp only [baseball_run, hgen] at hok
      cases hrec : baseball_run config players rest
          { position_history :=
              track_player_position_history lineup.assignments
                st.position_history,
            pitcher_history := update_pitcher_history lineup st.pitcher_history,
            bench_tracker :=
              update_bench_tracker lineup players st.bench_tracker } with
      | error e => simp only [hrec] at hok; exact Except.noConfusion hok
      | ok pr =>
        obtain ⟨ls2, stF2⟩ := pr
        simp only [hrec, Except.ok.injEq, Prod.mk.injEq] at hok
        obtain ⟨hls, hstF⟩ := hok
        subst hls
        subst hstF
        obtain ⟨hle, hlt⟩ := ih _ _ _ hrec
        have hmono := histSize_le_track lineup.assignments st.position_history
        refine ⟨Nat.le_trans hmono hle, ?_⟩
        intro l hl hne
        rcases List.mem_cons.mp hl with h1 | h1
        · have hstrict := histSize_lt_track lineup.assignments
            st.position_history (by rw [← h1]; exact hne)
          exact Nat.lt_of_lt_of_le hstrict hle
        · exact Nat.lt_of_le_of_lt hmono (hlt l h1 hne)

theorem baseball_run_periods (config : SportConfig) (players : List Player) :
    ∀ (periods : List Nat) (st : BaseballState) (ls : List Lineup)
      (stF : BaseballState),
      baseball_run config players periods st = .ok (ls, stF) →
      ls.map Lineup.period = periods := by
  intro periods
  induction periods with
  | nil =>
    intro st ls stF hok
    simp only [baseball_run, Except.ok.injEq, Prod.mk.injEq] at hok
    rw [← hok.1]
    rfl
  | cons period rest ih =>
    intro st ls stF hok
    cases hgen : generate_period_lineup config period players st with
    | error e =>
      simp only [baseball_run, hgen] at hok
      exact Except.noConfusion hok
    | ok lineup =>
      simp only [baseball_run, hgen] at hok
      cases hrec : baseball_run config players rest
          { position_history :=
              track_player_position_history lineup.assignments
                st.position_history,
            pitcher_history := update_pitcher_history lineup st.pitcher_history,
            bench_tracker :=
              update_bench_tracker lineup players st.bench_tracker } with
      | error e => simp only [hrec] at hok; exact Except.noConfusion hok
      | ok pr =>
        obtain ⟨ls2, stF2⟩ := pr
        simp only [hrec, Except.ok.injEq, Prod.mk.injEq] at hok
        obtain ⟨hls, hstF⟩ := hok
        subst hls
        obtain ⟨-, -, -, hper⟩ :=
          (generate_period_lineup_ok config period players st lineup
            hgen).choose_spec
        simp only [List.map_cons]
        rw [hper, ih _ _ _ hrec]

theorem volleyball_run_periods (config : SportConfig) (players : List Player) :
    ∀ (sets : List Nat) (st : VolleyballState) (ls : List Lineup)
      (stF : VolleyballState),
      volleyball_run config players sets st = .ok (ls, stF) →
      ls.map Lineup.period = sets := by
  intro sets
  induction sets with
  | nil =>
    intro st ls stF hok
    simp only [volleyball_run, Except.ok.injEq, Prod.mk.injEq] at hok
    rw [← hok.1]
    rfl
  | cons set_num rest ih =>
    intro st ls stF hok
    cases hset : generate_set_lineup config players
        (get_must_play_players players st.bench_tracker set_num)
        st.position_history with
    | error e =>
      simp only [volleyball_run, hset] at hok
      exact Except.noConfusion hok
    | ok tr =>
      obtain ⟨asg, bench, ph2⟩ := tr
      simp only [volleyball_run, hset] at hok
      cases hrec : volleyball_run config players rest
          { position_history := ph2,
            bench_tracker := players.foldl (fun bt p =>
              if bench.contains p then benchSet bt p.id (benchGet bt p.id + 1)
              else benchSet bt p.id 0) st.bench_tracker } with
      | error e => simp only [hrec] at hok; exact Except.noConfusion hok
      | ok pr =>
        obtain ⟨ls2, stF2⟩ := pr
        simp only [hrec, Except.ok.injEq, Prod.mk.injEq] at hok
        obtain ⟨hls, hstF⟩ := hok
        subst hls
        simp only [List.map_cons]
        rw [ih _ _ _ hrec]

theorem vb_required_positions_length (config : SportConfig) :
    (vb_required_positions config).length =
      (if (config.positions.find? (fun p => p.id == "S")).isSome then 1 else 0)
      + (if (config.positions.find? (fun p => p.id == "OH")).isSome then 2
          else 0)
      + (if (config.positions.find? (fun p => p.id == "MB")).isSome then 2
          else 0)
      + (if (config.positions.find? (fun p => p.id == "OPP")).isSome then 1
         else if (config.positions.find? (fun p => p.id == "L")).isSome then 1
         else if (config.positions.find? (fun p => p.id == "DS")).isSome then 1
         else 0) := by
  unfold vb_required_positions
  rcases hS : config.positions.find? (fun p => p.id == "S") with - | s <;>
    rcases hOH : config.positions.find? (fun p => p.id == "OH") with - | oh <;>
    rcases hMB : config.positions.find? (fun p => p.id == "MB") with - | mb <;>
    rcases hOPP : config.positions.find? (fun p => p.id == "OPP") with - | opp <;>
    rcases hL : config.positions.find? (fun p => p.id == "L") with - | lpos <;>
    rcases hDS : config.positions.find? (fun p => p.id == "DS") with - | ds <;>
    simp [hS, hOH, hMB, hOPP, hL, hDS]

/-! Claim theorems. -/

/-- C1: can_fill_all_positions is claimed to return true iff a one-to-one
assignment of distinct players to all listed positions exists, including
when a position identifier repeats.  The code violates this: on players
a (P, X) and b (P only) with position list [P, P, X] it returns true,
although the three slots would need three distinct players, because the
recursion keys its tentative-assignment dict by position id and the second
P overwrites (frees) the player put on the first P. -/
theorem c1_duplicate_position_counterexample :
    can_fill_all_positions [plPX, plPonly] ["P", "P", "X"] [] = true ∧
    ¬ existsInjFill [plPX, plPonly] ["P", "P", "X"] := by decide

/-- C2: the claim says the pitcher of period i+1 differs from the pitcher
of period i whenever at least two eligible pitchers exist, and that no
ineligible pitcher is ever assigned P.  The code violates this for
empty-preference players: the eligibility mask removes "P" only from
explicit preference lists, so a play-anywhere player keeps universal
eligibility.  In this two-period run player x pitches both periods while
the two other P-capable players y and z are eligible for period 2. -/
theorem c2_pitcher_consecutive_periods :
    (match baseball_generate bbConfig bbPlayers bbGameInfo2 (some bbHistX) with
     | .ok (ls, _) => ls.map pitcherId
     | .error _ => []) = [some "x", some "x"] ∧
    (get_eligible_pitchers bbPlayers [("x", [1])] 2).map Player.id
      = ["y", "z"] ∧
    (bbPlayers.filter (fun p =>
      p.can_play_position "P" && ! (p.id == "x"))).length = 2 := by decide

/-- C3 counterexample: assign_positions_smart is claimed to raise iff the
feasibility pre-check fails.  On players c (K, B), b (A, B), a (A, Z) with
the distinct positions A, B, K the pre-check passes (a valid one-to-one
assignment exists), yet the engine raises: after c takes K, both remaining
candidates fail the look-ahead at A, the fallback picks b, and B is left
with no candidate. -/
theorem c3_raises_despite_feasible :
    can_fill_all_positions [plKB, plAB, plAZ] ["A", "B", "K"] [] = true ∧
    existsInjFill [plKB, plAB, plAZ] ["A", "B", "K"] ∧
    isErr (assign_positions_smart [plKB, plAB, plAZ] [posA, posB, posK] [] [])
      = true := by decide

/-- C3 amended: assign_positions_smart raises immediately when the
feasibility pre-check on the full position list fails, and whenever it
returns successfully the assignment list covers exactly the requested
positions (one assignment per occurrence); however the look-ahead fallback
can strand a later position, so a no-candidates error is possible even
after a passing pre-check (see the counterexample). -/
theorem c3_amended_error_behavior (players : List Player)
    (positions : List Position) (must_play : List Player) (h : Hist) :
    (can_fill_all_positions players (positions.map (fun p => p.id)) [] = false
      → isErr (assign_positions_smart players positions must_play h) = true) ∧
    (∀ l, assign_positions_smart players positions must_play h = .ok l →
      (l.map (fun a => a.position)).Perm (positions.map Position.id)) :=
  ⟨fun hnf => assign_error_of_not_fillable players positions must_play h hnf,
   fun l hok => assign_ok_positions_perm players positions must_play h l hok⟩

/-- Witness for the amended C3 theorem at a concrete successful run. -/
theorem c3_amended_witness :
    (([⟨plOnlyA, "A"⟩, ⟨plOnlyB, "B"⟩] : List PositionAssignment).map
      (fun a => a.position)).Perm ([posA, posB].map Position.id) :=
  (c3_amended_error_behavior [plOnlyA, plBothAB, plOnlyB] [posA, posB] []
    [("r", ["B"])]).2 _ rfl

/-- C4 counterexample: the claim says the look-ahead checks that the
positions NOT YET PROCESSED can still be filled.  The code instead checks
every position of the scarcity list whose identifier differs from the
current one, including positions already processed.  With positions A, B
and players p (A), q (A, B), r (B, already credited with one B in the
history), the code assigns r to B while the claimed rule assigns q
(modelled by assign_positions_smart_claim). -/
theorem c4_lookahead_divergence :
    assign_positions_smart [plOnlyA, plBothAB, plOnlyB] [posA, posB] []
        [("r", ["B"])] =
      .ok [⟨plOnlyA, "A"⟩, ⟨plOnlyB, "B"⟩] ∧
    assign_positions_smart_claim [plOnlyA, plBothAB, plOnlyB] [posA, posB] []
        [("r", ["B"])] =
      .ok [⟨plOnlyA, "A"⟩, ⟨plBothAB, "B"⟩] ∧
    plOnlyB ≠ plBothAB :=
  ⟨rfl, rfl, by decide⟩

/-- C4 amended: at each position the chosen player is the first candidate
in sorted order whose look-ahead passes, where the look-ahead covers every
position of the precomputed scarcity list with a different identifier
(processed ones and duplicate occurrences included); when no candidate
passes, the first-ranked candidate is chosen; the chosen player always
comes from the candidate list. -/
theorem c4_amended_chooser (scar : List (Position × Nat)) (position : Position)
    (pool : List Player) (first : Player) (cands : List Player) :
    chooseCandidate scar position pool first (first :: cands) =
      ((first :: cands).find? (lookahead_passes scar position pool)).getD
        first ∧
    ((first :: cands).find? (lookahead_passes scar position pool)).getD first
      ∈ first :: cands := by
  have h1 : chooseCandidate scar position pool first (first :: cands) =
      ((first :: cands).find? (lookahead_passes scar position pool)).getD
        first := by
    unfold chooseCandidate
    rw [findChosen_eq_find]
    cases (first :: cands).find? (lookahead_passes scar position pool) <;> rfl
  exact ⟨h1, h1 ▸ chooseCandidate_mem scar position pool first _
    (List.mem_cons_self _ _)⟩

/-- C5 counterexample: in a three-set volleyball run, m1 and m2 are benched
in sets 1 and 2 (bench count 2 entering set 3, so both are must-play), m1
can play the required position S, assigning both must-play players at once
was feasible (c5BothAssignment), yet set 3 benches m1: the must-play
candidate ranking sends m2 to S and m1 has nowhere else to play. -/
theorem c5_mustplay_left_benched :
    (match volleyball_generate vbConfig vbPlayers vbGameInfo
        (some vbHistMust) with
     | .ok (ls, _) => some (ls.map (fun l => l.bench_players.map Player.id))
     | .error _ => none) = some [["m1", "m2"], ["m1", "m2"], ["s3", "m1"]] ∧
    plM1.can_play_position "S" = true ∧
    "S" ∈ (vb_required_positions vbConfig).map Position.id ∧
    c5BothAssignment.map Prod.snd =
      (vb_required_positions vbConfig).map Position.id ∧
    (∀ pr ∈ c5BothAssignment,
      pr.1 ∈ vbPlayers ∧ pr.1.can_play_position pr.2 = true) ∧
    (c5BothAssignment.map (fun pr => pr.1.id)).Nodup := by decide

/-- C5 amended: whenever a must-play player is eligible for a position the
candidate set is restricted to the must-play subset, and a SOLE must-play
player who belongs to the pool and can play at least one requested position
is always assigned when the engine succeeds; with several must-play players
one of them can be left benched even when assigning all of them was
feasible (see the counterexample). -/
theorem c5_amended_single_mustplay (players : List Player)
    (positions : List Position) (h : Hist) (M : Player)
    (l : List PositionAssignment)
    (hok : assign_positions_smart players positions [M] h = .ok l)
    (hM : M ∈ players)
    (helig : ∃ pos ∈ positions, M.can_play_position pos.id = true) :
    ∃ a ∈ l, a.player = M := by
  simp only [assign_positions_smart] at hok
  split at hok
  · refine assignLoop_single_mustplay _ _ _ _ _ _ _ hok hM ?_
    rcases helig with ⟨pos, hpos, hplay⟩
    refine ⟨(pos, (get_candidates_for_position pos players).length), ?_, hplay⟩
    simp only [calculate_position_scarcity]
    rw [mem_stableSort]
    exact List.mem_map_of_mem _ hpos
  · exact Except.noConfusion hok

/-- Witness for the amended C5 theorem: a sole must-play backup setter is
assigned the setter slot. -/
theorem c5_amended_witness :
    ∃ a ∈ [(⟨plM1, "S"⟩ : PositionAssignment)], a.player = plM1 :=
  c5_amended_single_mustplay [plS3, plM1] [posS] [] plM1
    [⟨plM1, "S"⟩] rfl (by decide) ⟨posS, by decide, by decide⟩

/-- C6: for every lineup of a successful baseball or volleyball generate()
call, the assigned player ids and the bench player ids are disjoint and
together are exactly the input player ids. -/
theorem c6_partition_generate (config : SportConfig) (players : List Player)
    (gi : GameInfo) (ph : Option Hist) :
    (∀ ls hF, baseball_generate config players gi ph = .ok (ls, hF) →
      ∀ l ∈ ls, lineup_partition players l) ∧
    (∀ ls hF, volleyball_generate config players gi ph = .ok (ls, hF) →
      ∀ l ∈ ls, lineup_partition players l) := by
  constructor
  · intro ls hF hok l hl
    obtain ⟨stF, hrun, -⟩ :=
      baseball_generate_run config players gi ph ls hF hok
    obtain ⟨p, st', hper⟩ := baseball_run_mem config players _ _ _ _ hrun l hl
    obtain ⟨asg, hasg, hassign, hbench, -⟩ :=
      generate_period_lineup_ok config p players st' l hper
    refine partition_of_bench players asg l hassign hbench ?_
    intro pid hpid
    rcases List.mem_map.mp hpid with ⟨a, ha, hpeq⟩
    have hpm := assign_ok_player_mem _ _ _ _ _ hasg a ha
    have hmm : a.player.id ∈ (filter_ineligible_pitchers config players
        ((get_eligible_pitchers players st'.pitcher_history p).map
          (fun pp => pp.id))).map Player.id :=
      List.mem_map_of_mem _ hpm
    rw [filter_ineligible_ids] at hmm
    rw [← hpeq]
    exact hmm
  · intro ls hF hok l hl
    obtain ⟨stF, hrun, -⟩ :=
      volleyball_generate_run config players gi ph ls hF hok
    obtain ⟨mp, ph2, asg, bench, ph3, hset, hassign, hbench⟩ :=
      volleyball_run_mem config players _ _ _ _ hrun l hl
    obtain ⟨hasg, hbencheq⟩ :=
      generate_set_lineup_ok config players mp ph2 asg bench ph3 hset
    refine partition_of_bench players asg l hassign
      (by rw [hbench, hbencheq]) ?_
    intro pid hpid
    rcases List.mem_map.mp hpid with ⟨a, ha, hpeq⟩
    have hpm := assign_ok_player_mem _ _ _ _ _ hasg a ha
    rw [← hpeq]
    exact List.mem_map_of_mem _ hpm

/-- Witness for the C6 theorem at concrete one-period runs of both
generators. -/
theorem c6_partition_witness :
    lineup_partition [plY] bb1Lineup ∧ lineup_partition [plS3] vb1Lineup :=
  ⟨(c6_partition_generate bb1Config [plY] bbGameInfo1
      (some [("y", ["C"])])).1 [bb1Lineup] [("y", ["C", "P"])] rfl
      bb1Lineup (by decide),
   (c6_partition_generate vb1Config [plS3] vbGameInfo1
      (some [("s3", ["S"])])).2 [vb1Lineup] [("s3", ["S", "S"])] rfl
      vb1Lineup (by decide)⟩

/-- C7 counterexample: the claim says every lineup's assignments contain
each position identifier at most once, but a successful volleyball run
assigns OH (and MB) twice by design, since the required list is
[S, OH, OH, MB, MB, OPP]. -/
theorem c7_position_repeats :
    (match volleyball_generate vbConfig uPlayers vbGameInfo1 none with
     | .ok (ls, _) => ls.map (fun l =>
         (l.assignments.map (fun a => a.position)).count "OH")
     | .error _ => []) = [2] := by decide

/-- C7 amended: when the input player ids are distinct, every lineup of a
successful generate() call assigns each player at most once, and its
position identifiers are exactly the requested list (each id occurring with
the multiplicity of the request: all distinct for baseball's nine
positions, OH and MB twice for volleyball). -/
theorem c7_amended_uniqueness (config : SportConfig) (players : List Player)
    (gi : GameInfo) (ph : Option Hist)
    (hnd : (players.map Player.id).Nodup) :
    (∀ ls hF, baseball_generate config players gi ph = .ok (ls, hF) →
      ∀ l ∈ ls, (l.assignments.map (fun a => a.player.id)).Nodup ∧
        (l.assignments.map (fun a => a.position)).Perm
          (config.positions.map Position.id)) ∧
    (∀ ls hF, volleyball_generate config players gi ph = .ok (ls, hF) →
      ∀ l ∈ ls, (l.assignments.map (fun a => a.player.id)).Nodup ∧
        (l.assignments.map (fun a => a.position)).Perm
          ((vb_required_positions config).map Position.id)) := by
  constructor
  · intro ls hF hok l hl
    obtain ⟨stF, hrun, -⟩ :=
      baseball_generate_run config players gi ph ls hF hok
    obtain ⟨p, st', hper⟩ := baseball_run_mem config players _ _ _ _ hrun l hl
    obtain ⟨asg, hasg, hassign, -, -⟩ :=
      generate_period_lineup_ok config p players st' l hper
    rw [hassign]
    constructor
    · refine assign_ok_nodup _ _ _ _ _ hasg ?_
      rw [filter_ineligible_ids]
      exact hnd
    · exact assign_ok_positions_perm _ _ _ _ _ hasg
  · intro ls hF hok l hl
    obtain ⟨stF, hrun, -⟩ :=
      volleyball_generate_run config players gi ph ls hF hok
    obtain ⟨mp, ph2, asg, bench, ph3, hset, hassign, -⟩ :=
      volleyball_run_mem config players _ _ _ _ hrun l hl
    obtain ⟨hasg, -⟩ :=
      generate_set_lineup_ok config players mp ph2 asg bench ph3 hset
    rw [hassign]
    exact ⟨assign_ok_nodup _ _ _ _ _ hasg hnd,
      assign_ok_positions_perm _ _ _ _ _ hasg⟩

/-- Witness for the amended C7 theorem at concrete one-period runs. -/
theorem c7_amended_witness :
    ((bb1Lineup.assignments.map (fun a => a.player.id)).Nodup ∧
      (bb1Lineup.assignments.map (fun a => a.position)).Perm
        (bb1Config.positions.map Position.id)) ∧
    ((vb1Lineup.assignments.map (fun a => a.player.id)).Nodup ∧
      (vb1Lineup.assignments.map (fun a => a.position)).Perm
        ((vb_required_positions vb1Config).map Position.id)) :=
  ⟨(c7_amended_uniqueness bb1Config [plY] bbGameInfo1 (some [("y", ["C"])])
      (by decide)).1 [bb1Lineup] [("y", ["C", "P"])] rfl bb1Lineup (by decide),
   (c7_amended_uniqueness vb1Config [plS3] vbGameInfo1 (some [("s3", ["S"])])
      (by decide)).2 [vb1Lineup] [("s3", ["S", "S"])] rfl vb1Lineup
      (by decide)⟩

/-- C8 counterexample: volleyball reads the num_sets key, not num_periods;
with num_periods 5 present and num_sets absent, a successful volleyball
generate() returns 3 lineups, not 5. -/
theorem c8_num_periods_ignored :
    vbGameInfoNP5.num_periods = some 5 ∧
    vbGameInfoNP5.num_sets = none ∧
    (match volleyball_generate vbConfig uPlayers vbGameInfoNP5 none with
     | .ok (ls, _) => ls.length
     | .error _ => 0) = 3 := by decide

/-- C8 amended: a successful baseball generate() returns num_periods
lineups (default 3) and a successful volleyball generate() returns
num_sets lineups (default 3, num_periods is ignored), in both cases
numbered consecutively from 1. -/
theorem c8_amended_counts (config : SportConfig) (players : List Player)
    (gi : GameInfo) (ph : Option Hist) :
    (∀ ls hF, baseball_generate config players gi ph = .ok (ls, hF) →
      ls.length = gi.num_periods.getD 3 ∧
      ls.map Lineup.period = List.range' 1 (gi.num_periods.getD 3)) ∧
    (∀ ls hF, volleyball_generate config players gi ph = .ok (ls, hF) →
      ls.length = gi.num_sets.getD 3 ∧
      ls.map Lineup.period = List.range' 1 (gi.num_sets.getD 3)) := by
  constructor
  · intro ls hF hok
    obtain ⟨stF, hrun, -⟩ :=
      baseball_generate_run config players gi ph ls hF hok
    have hper := baseball_run_periods config players _ _ _ _ hrun
    refine ⟨?_, hper⟩
    have hlen := congrArg List.length hper
    simpa using hlen
  · intro ls hF hok
    obtain ⟨stF, hrun, -⟩ :=
      volleyball_generate_run config players gi ph ls hF hok
    have hper := volleyball_run_periods config players _ _ _ _ hrun
    refine ⟨?_, hper⟩
    have hlen := congrArg List.length hper
    simpa using hlen

/-- Witness for the amended C8 theorem at concrete one-period runs. -/
theorem c8_amended_witness :
    ([bb1Lineup].length = bbGameInfo1.num_periods.getD 3 ∧
      [bb1Lineup].map Lineup.period =
        List.range' 1 (bbGameInfo1.num_periods.getD 3)) ∧
    ([vb1Lineup].length = vbGameInfo1.num_sets.getD 3 ∧
      [vb1Lineup].map Lineup.period =
        List.range' 1 (vbGameInfo1.num_sets.getD 3)) :=
  ⟨(c8_amended_counts bb1Config [plY] bbGameInfo1 (some [("y", ["C"])])).1
      [bb1Lineup] [("y", ["C", "P"])] rfl,
   (c8_amended_counts vb1Config [plS3] vbGameInfo1 (some [("s3", ["S"])])).2
      [vb1Lineup] [("s3", ["S", "S"])] rfl⟩

/-- C9 counterexample: the claim says a caller-supplied player_history map
is unchanged after generate(); in this successful baseball run the map
observed after the call differs from the map passed in (the generator
appends every period's assignments to it in place). -/
theorem c9_history_mutated :
    (match baseball_generate bbConfig bbPlayers bbGameInfo2 (some bbHistX) with
     | .ok (_, hF) => hF == bbHistX
     | .error _ => true) = false := by decide

/-- C9 amended: the Player records, players list and game_info are never
written, and pitcher/bench tracking is created fresh per call, but a
caller-supplied non-empty player_history dict is updated in place: after
any successful baseball generate() that assigned at least one position, the
dict differs from the one passed in. -/
theorem c9_amended_history_mutation (config : SportConfig)
    (players : List Player) (gi : GameInfo) (h0 : Hist) (ls : List Lineup)
    (hF : Hist)
    (hok : baseball_generate config players gi (some h0) = .ok (ls, hF))
    (hwork : ∃ l ∈ ls, l.assignments ≠ []) :
    hF ≠ h0 := by
  obtain ⟨stF, hrun, hhF⟩ :=
    baseball_generate_run config players gi (some h0) ls hF hok
  obtain ⟨-, hlt⟩ := baseball_run_histSize config players _ _ _ _ hrun
  rcases hwork with ⟨l, hl, hne⟩
  have hstrict := hlt l hl hne
  intro he
  rw [hhF] at he
  rw [he] at hstrict
  exact Nat.lt_irrefl _ hstrict

/-- Witness for the amended C9 theorem at a concrete one-period run. -/
theorem c9_amended_witness : ([("y", ["C", "P"])] : Hist) ≠ [("y", ["C"])] :=
  c9_amended_history_mutation bb1Config [plY] bbGameInfo1 [("y", ["C"])]
    [bb1Lineup] [("y", ["C", "P"])] rfl ⟨bb1Lineup, by decide, by decide⟩

/-- C10: when the configuration defines none of OPP, L, DS the volleyball
required-position list silently shrinks below 6 entries, and generation
completes without raising, returning lineups with 5 assignments. -/
theorem c10_required_positions_shrink :
    (∀ config : SportConfig,
      config.positions.all (fun p =>
        ! (p.id == "OPP") && ! (p.id == "L") && ! (p.id == "DS")) = true →
      (vb_required_positions config).length < 6) ∧
    (vb_required_positions vbConfigNoOpp).map Position.id =
      ["S", "OH", "OH", "MB", "MB"] ∧
    (match volleyball_generate vbConfigNoOpp uPlayers vbGameInfo1 none with
     | .ok (ls, _) => ls.map (fun l => l.assignments.length)
     | .error _ => []) = [5] := by
  refine ⟨?_, by decide, by decide⟩
  intro config hall
  rw [vb_required_positions_length]
  rw [List.all_eq_true] at hall
  have hOPP : config.positions.find? (fun p => p.id == "OPP") = none := by
    rw [List.find?_eq_none]
    intro x hx
    have hx2 := hall x hx
    simp only [Bool.and_eq_true, Bool.not_eq_true'] at hx2
    simp [hx2.1.1]
  have hL : config.positions.find? (fun p => p.id == "L") = none := by
    rw [List.find?_eq_none]
    intro x hx
    have hx2 := hall x hx
    simp only [Bool.and_eq_true, Bool.not_eq_true'] at hx2
    simp [hx2.1.2]
  have hDS : config.positions.find? (fun p => p.id == "DS") = none := by
    rw [List.find?_eq_none]
    intro x hx
    have hx2 := hall x hx
    simp only [Bool.and_eq_true, Bool.not_eq_true'] at hx2
    simp [hx2.2]
  rw [hOPP, hL, hDS]
  simp only [Option.isSome_none, Bool.false_eq_true, if_false]
  split <;> split <;> split <;> omega

/-- Witness for the C10 theorem at the concrete OPP-less configuration. -/
theorem c10_witness : (vb_required_positions vbConfigNoOpp).length < 6 :=
  c10_required_positions_shrink.1 vbConfigNoOpp (by decide)

end Lineups
